import Mathlib

/-!
# Verification of the SVI calibration module (`svi_module.py`)

Shallow embedding of the SVI volatility-surface module: the SVI model
function, the calibration objective with its validity gate and
regularization, the multi-start calibration driver, the per-maturity
surface generator, and the IQR outlier filter.

Modelling conventions.

* Machine floats become exact real numbers `ℝ` (the outlier filter, whose
  arithmetic is rational, is modelled over `ℚ` so that its theorems can be
  checked by evaluation).
* `numpy` arrays become lists; elementwise operations become `List.map`
  and `List.zip`.
* `scipy.optimize.minimize` together with the `np.random.uniform` draws
  that seed it is external, stochastic code.  One multi-start attempt
  enters the model as its outcome: `none` when the call raised (the
  `except` path), `some x` when it completed with final point `result.x = x`;
  `result.fun` is the objective evaluated at that final point, which is how
  L-BFGS-B reports the achieved value.  The calibration driver's own logic
  (the fold that keeps the best attempt) is embedded exactly.
* `np.min(v)` on an empty array raises; `calibrate_svi` is therefore
  embedded with `Except`, erroring exactly on empty `v`.
* A pandas `DataFrame` of surface rows becomes a structure holding the
  column-name list and the row list, so the two schema branches of
  `generate_svi_calibrated_data` stay observable.
-/

namespace SviModule

/-- The SVI parameter vector `[a, b, rho, m_param, sigma]` of
`svi_module.py`. -/
structure SviParams where
  a : ℝ
  b : ℝ
  rho : ℝ
  m_param : ℝ
  sigma : ℝ

/-- `svi_model` (line 21): `a + b * (rho * (k - m_param) + np.sqrt((k - m_param)**2 + sigma**2))`
at a single log-moneyness `k`. -/
noncomputable def svi_model (k a b rho m_param sigma : ℝ) : ℝ :=
  a + b * (rho * (k - m_param) + Real.sqrt ((k - m_param) ^ 2 + sigma ^ 2))

/-- `svi_model` applied elementwise to an array of log-moneyness values,
as numpy broadcasting does. -/
noncomputable def svi_model_vec (ks : List ℝ) (a b rho m_param sigma : ℝ) : List ℝ :=
  ks.map fun k => svi_model k a b rho m_param sigma

/-- `np.sum((model_values - v) ** 2)` (line 39): elementwise difference of
the two arrays, squared, summed. -/
noncomputable def sq_error (model v : List ℝ) : ℝ :=
  ((model.zip v).map fun q => (q.1 - q.2) ^ 2).sum

/-- `svi_objective` (lines 23-41): the invalid-parameter gate returns the
`1e10` penalty; otherwise sum of squared errors plus
`lambda_reg * (b**2 + sigma**2)`. -/
noncomputable def svi_objective (p : SviParams) (k v : List ℝ) (lambda_reg : ℝ) : ℝ :=
  if p.b < 0 ∨ p.sigma ≤ 0 ∨ 1 ≤ |p.rho| then 1e10
  else sq_error (svi_model_vec k p.a p.b p.rho p.m_param p.sigma) v
        + lambda_reg * (p.b ^ 2 + p.sigma ^ 2)

/-- One multi-start attempt's outcome: `none` when
`scipy.optimize.minimize` raised and the `except Exception: continue`
path was taken, `some x` when it completed with final parameter vector
`result.x = x` (so `result.fun = svi_objective x k v lambda_reg`). -/
abbrev Attempt := Option SviParams

/-- One iteration of the multi-start loop body (lines 77-84): a raising
attempt leaves the best pair untouched; a completed attempt replaces it
when `result.fun < best_obj_val` (the initial `best_obj_val = np.inf`
is the `none` state, which any finite value beats). -/
noncomputable def calibrate_step (k v : List ℝ) (lambda_reg : ℝ)
    (best : Option (SviParams × ℝ)) (att : Attempt) : Option (SviParams × ℝ) :=
  match att with
  | none => best
  | some x =>
    match best with
    | none => some (x, svi_objective x k v lambda_reg)
    | some (bx, bf) =>
      if svi_objective x k v lambda_reg < bf then some (x, svi_objective x k v lambda_reg)
      else some (bx, bf)

/-- The multi-start loop of `calibrate_svi` (lines 55-84): fold the
attempt outcomes over the best-so-far state, starting from
`best_params = None`, `best_obj_val = np.inf`. -/
noncomputable def calibrate_svi_run (k v : List ℝ) (lambda_reg : ℝ)
    (attempts : List Attempt) : Option (SviParams × ℝ) :=
  attempts.foldl (calibrate_step k v lambda_reg) none

/-- `calibrate_svi` (lines 43-86): `base_a = np.min(v)` is evaluated before
the loop and raises on empty `v` (modelled as `Except.error`); otherwise
the best attempt's parameters are returned (`best_params`, possibly
`None`). -/
noncomputable def calibrate_svi (k v : List ℝ) (lambda_reg : ℝ)
    (attempts : List Attempt) : Except Unit (Option SviParams) :=
  match v with
  | [] => .error ()
  | _ :: _ => .ok ((calibrate_svi_run k v lambda_reg attempts).map Prod.fst)

/-- One row of the input quote table `imp_vol_data`: the columns the
surface generator reads. -/
structure Quote where
  timeToExpiry : ℝ
  logMoneyness : ℝ
  impliedVolatility : ℝ

/-- `np.isclose(x, y)` with numpy's default tolerances
`rtol = 1e-05`, `atol = 1e-08`: `|x - y| <= atol + rtol * |y|`. -/
def IsClose (x y : ℝ) : Prop :=
  |x - y| ≤ 1e-8 + 1e-5 * |y|

noncomputable instance (x y : ℝ) : Decidable (IsClose x y) :=
  inferInstanceAs (Decidable (|x - y| ≤ 1e-8 + 1e-5 * |y|))

/-- The maturity slice (line 105):
`imp_vol_data[np.isclose(imp_vol_data["TimeToExpiry"], maturity)]`. -/
noncomputable def slice (maturity : ℝ) : List Quote → List Quote
  | [] => []
  | q :: rest =>
    if IsClose q.timeToExpiry maturity then q :: slice maturity rest
    else slice maturity rest

/-- The slice's `k` column (line 109): `maturity_data["LogMoneyness"].values`. -/
noncomputable def sliceK (quotes : List Quote) (maturity : ℝ) : List ℝ :=
  (slice maturity quotes).map fun q => q.logMoneyness

/-- The slice's `v` column (line 110):
`maturity_data["ImpliedVolatility"].values * 100`. -/
noncomputable def sliceV (quotes : List Quote) (maturity : ℝ) : List ℝ :=
  (slice maturity quotes).map fun q => q.impliedVolatility * 100

/-- `min` of a nonempty array (`min(k)`); `0` for the empty list, which the
caller's length guard rules out. -/
noncomputable def listMin : List ℝ → ℝ
  | [] => 0
  | x :: xs => xs.foldl min x

/-- `max` of a nonempty array (`max(k)`); `0` for the empty list, which the
caller's length guard rules out. -/
noncomputable def listMax : List ℝ → ℝ
  | [] => 0
  | x :: xs => xs.foldl max x

/-- `np.linspace(lo, hi, n)` (line 117): `n` evenly spaced points from `lo`
to `hi`, both endpoints included. -/
noncomputable def linspace (lo hi : ℝ) (n : ℕ) : List ℝ :=
  (List.range n).map fun i : ℕ => lo + (i : ℝ) * (hi - lo) / ((n : ℝ) - 1)

/-- The dense grid of line 117: `np.linspace(min(k)-0.1, max(k)+0.1, 100)`. -/
noncomputable def gridOf (quotes : List Quote) (maturity : ℝ) : List ℝ :=
  linspace (listMin (sliceK quotes maturity) - 0.1)
    (listMax (sliceK quotes maturity) + 0.1) 100

/-- The option-type label of line 128:
`option_data_type.replace(" Only", "").replace("Both Calls & Puts", "Both")`. -/
def normalize_option_type (s : String) : String :=
  (s.replace " Only" "").replace "Both Calls & Puts" "Both"

/-- One output row of the calibrated surface. -/
structure SurfaceRow where
  timeToExpiry : ℝ
  logMoneyness : ℝ
  strikePrice : ℝ
  moneyness : ℝ
  impliedVolatility : ℝ
  optionType : String

/-- The dict appended at lines 122-129, for grid point `ks`. -/
noncomputable def rowOf (spot_price : ℝ) (option_data_type : String)
    (maturity : ℝ) (p : SviParams) (ks : ℝ) : SurfaceRow :=
  { timeToExpiry := maturity
    logMoneyness := ks
    strikePrice := spot_price * Real.exp ks
    moneyness := Real.exp ks
    impliedVolatility := svi_model ks p.a p.b p.rho p.m_param p.sigma / 100
    optionType := normalize_option_type option_data_type }

/-- The body of the per-maturity loop (lines 104-129): skip a slice with
fewer than 5 quotes, calibrate on `(k, v * 100)`, skip on `None`, else
sample the fitted model on the dense grid.  The `.error` branch is the
`np.min` of an empty `v`, which the length guard makes unreachable
(`calibrate_svi_total`). -/
noncomputable def maturityRows (attempts : List Attempt) (quotes : List Quote)
    (spot_price reg_weight : ℝ) (option_data_type : String) (maturity : ℝ) :
    List SurfaceRow :=
  if (slice maturity quotes).length < 5 then []
  else
    match calibrate_svi (sliceK quotes maturity) (sliceV quotes maturity)
        reg_weight attempts with
    | .error _ => []
    | .ok none => []
    | .ok (some p) => (gridOf quotes maturity).map (rowOf spot_price option_data_type maturity p)

/-- The full row list accumulated in `svi_calibrated_data` over
`unique_maturities` (lines 102-129).  `attemptsFor m` supplies the
multi-start outcomes drawn while processing maturity `m`. -/
noncomputable def generateRows (attemptsFor : ℝ → List Attempt)
    (unique_maturities : List ℝ) (quotes : List Quote)
    (spot_price reg_weight : ℝ) (option_data_type : String) : List SurfaceRow :=
  unique_maturities.flatMap fun m =>
    maturityRows (attemptsFor m) quotes spot_price reg_weight option_data_type m

/-- A pandas DataFrame as the surface generator returns it: its column
names and its rows. -/
structure DFrame where
  columns : List String
  rows : List SurfaceRow

/-- The column set of a nonempty output, i.e. the keys of the dicts of
lines 122-129 in insertion order. -/
def fullColumns : List String :=
  ["TimeToExpiry", "LogMoneyness", "StrikePrice", "Moneyness",
   "ImpliedVolatility", "OptionType"]

/-- The column list of the empty-output branch (line 134). -/
def emptyColumns : List String :=
  ["TimeToExpiry", "StrikePrice", "Moneyness", "ImpliedVolatility", "OptionType"]

/-- `generate_svi_calibrated_data` (lines 88-134): the accumulated rows as
a DataFrame when any exist, otherwise the explicit empty frame of
line 134. -/
noncomputable def generate_svi_calibrated_data (attemptsFor : ℝ → List Attempt)
    (unique_maturities : List ℝ) (quotes : List Quote)
    (spot_price reg_weight : ℝ) (option_data_type : String) : DFrame :=
  match generateRows attemptsFor unique_maturities quotes spot_price reg_weight
      option_data_type with
  | [] => ⟨emptyColumns, []⟩
  | r :: rs => ⟨fullColumns, r :: rs⟩

/-- One row of the quote table as `filter_outliers` sees it: its
`ImpliedVolatility` cell and (when the table has that column) its
`volume` cell.  Exact rationals stand in for the floats. -/
structure VolRow where
  impliedVolatility : ℚ
  volume : ℚ
  deriving DecidableEq

/-- pandas `Series.quantile(q)` with the default linear interpolation:
sort the values, set `h = q * (n - 1)`, and interpolate between the
values at positions `⌊h⌋` and `⌊h⌋ + 1`. -/
def quantileLin (xs : List ℚ) (q : ℚ) : ℚ :=
  let s := xs.insertionSort (· ≤ ·)
  let h := q * ((s.length : ℚ) - 1)
  let i := ⌊h⌋₊
  let lo := s.getD i 0
  let hi := s.getD (i + 1) lo
  lo + (h - (i : ℚ)) * (hi - lo)

/-- The volume pre-filter of lines 146-147: rows with `volume > 10`, applied
only when the table has a volume column. -/
def volumeStep (hasVolume : Bool) (rows : List VolRow) : List VolRow :=
  if hasVolume then rows.filter fun r => 10 < r.volume else rows

/-- `filter_outliers` (lines 136-157): the optional volume filter, then the
IQR bounds `[Q1 - 2*IQR, Q3 + 2*IQR]` computed from the volume-filtered
table's `ImpliedVolatility` column. -/
def filter_outliers (hasVolume : Bool) (rows : List VolRow) : List VolRow :=
  let d := volumeStep hasVolume rows
  let q1 := quantileLin (d.map fun r => r.impliedVolatility) (1/4)
  let q3 := quantileLin (d.map fun r => r.impliedVolatility) (3/4)
  let iqr := q3 - q1
  d.filter fun r =>
    q1 - 2 * iqr ≤ r.impliedVolatility ∧ r.impliedVolatility ≤ q3 + 2 * iqr

/-- A concrete maturity slice used to evaluate the theorems: five quotes
at maturity `1` with log-moneyness `0, 0.1, 0.2, 0.3, 0.4` and implied
volatility `0.2`. -/
noncomputable def wQuotes : List Quote :=
  [⟨1, 0, 0.2⟩, ⟨1, 0.1, 0.2⟩, ⟨1, 0.2, 0.2⟩, ⟨1, 0.3, 0.2⟩, ⟨1, 0.4, 0.2⟩]

/-- A concrete slice with only four quotes at maturity `1`. -/
noncomputable def wQuotesFew : List Quote :=
  [⟨1, 0, 0.2⟩, ⟨1, 0.1, 0.2⟩, ⟨1, 0.2, 0.2⟩, ⟨1, 0.3, 0.2⟩]

/-- A concrete feasible parameter vector. -/
noncomputable def wParams : SviParams := ⟨0, 0, 0, 0, 1⟩

/-! ## Lemmas about the calibration fold -/

theorem calibrate_step_eq_none (k v : List ℝ) (lam : ℝ)
    (best : Option (SviParams × ℝ)) (att : Attempt) :
    calibrate_step k v lam best att = none ↔ best = none ∧ att = none := by
  cases att with
  | none => simp [calibrate_step]
  | some x =>
    cases best with
    | none => simp [calibrate_step]
    | some b =>
      obtain ⟨bx, bf⟩ := b
      simp only [calibrate_step]
      split <;> simp

theorem calibrate_foldl_eq_none (k v : List ℝ) (lam : ℝ) :
    ∀ (l : List Attempt) (acc : Option (SviParams × ℝ)),
      l.foldl (calibrate_step k v lam) acc = none ↔
        acc = none ∧ ∀ a ∈ l, a = none := by
  intro l
  induction l with
  | nil => intro acc; simp
  | cons a l ih =>
    intro acc
    rw [List.foldl_cons, ih, calibrate_step_eq_none]
    constructor
    · rintro ⟨⟨hacc, ha⟩, hl⟩
      refine ⟨hacc, fun b hb => ?_⟩
      rcases List.mem_cons.mp hb with hb | hb
      · exact hb ▸ ha
      · exact hl b hb
    · rintro ⟨hacc, h⟩
      exact ⟨⟨hacc, h a (List.mem_cons_self a l)⟩,
        fun b hb => h b (List.mem_cons_of_mem a hb)⟩

theorem calibrate_svi_run_none_iff (k v : List ℝ) (lam : ℝ)
    (attempts : List Attempt) :
    calibrate_svi_run k v lam attempts = none ↔ ∀ a ∈ attempts, a = none := by
  rw [calibrate_svi_run, calibrate_foldl_eq_none]
  simp

theorem calibrate_step_value (k v : List ℝ) (lam : ℝ)
    (best : Option (SviParams × ℝ)) (att : Attempt)
    (hbest : ∀ q g, best = some (q, g) → g = svi_objective q k v lam) :
    ∀ q g, calibrate_step k v lam best att = some (q, g) →
      g = svi_objective q k v lam := by
  intro q g h
  cases att with
  | none => exact hbest q g h
  | some x =>
    cases best with
    | none =>
      simp only [calibrate_step, Option.some.injEq, Prod.mk.injEq] at h
      obtain ⟨hq, hg⟩ := h
      subst hq
      exact hg.symm
    | some b =>
      obtain ⟨bx, bf⟩ := b
      simp only [calibrate_step] at h
      split at h <;>
        simp only [Option.some.injEq, Prod.mk.injEq] at h
      · obtain ⟨hq, hg⟩ := h
        rw [← hq, ← hg]
      · obtain ⟨hq, hg⟩ := h
        rw [← hq, ← hg]
        exact hbest bx bf rfl

theorem calibrate_step_mono (k v : List ℝ) (lam : ℝ) (att : Attempt)
    (bx : SviParams) (bf : ℝ) :
    ∃ p f, calibrate_step k v lam (some (bx, bf)) att = some (p, f) ∧ f ≤ bf := by
  cases att with
  | none => exact ⟨bx, bf, rfl, le_rfl⟩
  | some x =>
    simp only [calibrate_step]
    split
    · exact ⟨x, svi_objective x k v lam, rfl, le_of_lt (by assumption)⟩
    · exact ⟨bx, bf, rfl, le_rfl⟩

theorem calibrate_step_le_att (k v : List ℝ) (lam : ℝ)
    (best : Option (SviParams × ℝ)) (x : SviParams) :
    ∃ p f, calibrate_step k v lam best (some x) = some (p, f) ∧
      f ≤ svi_objective x k v lam := by
  cases best with
  | none => exact ⟨x, svi_objective x k v lam, rfl, le_rfl⟩
  | some b =>
    obtain ⟨bx, bf⟩ := b
    simp only [calibrate_step]
    split
    · exact ⟨x, svi_objective x k v lam, rfl, le_rfl⟩
    · exact ⟨bx, bf, rfl, le_of_not_lt (by assumption)⟩

theorem calibrate_foldl_mono (k v : List ℝ) (lam : ℝ) :
    ∀ (l : List Attempt) (bx : SviParams) (bf : ℝ),
      ∃ p f, l.foldl (calibrate_step k v lam) (some (bx, bf)) = some (p, f) ∧
        f ≤ bf := by
  intro l
  induction l with
  | nil => intro bx bf; exact ⟨bx, bf, rfl, le_rfl⟩
  | cons a l ih =>
    intro bx bf
    obtain ⟨p1, f1, hstep, hle1⟩ := calibrate_step_mono k v lam a bx bf
    obtain ⟨p, f, hfold, hle⟩ := ih p1 f1
    exact ⟨p, f, by rw [List.foldl_cons, hstep, hfold], hle.trans hle1⟩

theorem calibrate_foldl_value (k v : List ℝ) (lam : ℝ) :
    ∀ (l : List Attempt) (acc : Option (SviParams × ℝ)),
      (∀ q g, acc = some (q, g) → g = svi_objective q k v lam) →
      ∀ p f, l.foldl (calibrate_step k v lam) acc = some (p, f) →
        f = svi_objective p k v lam := by
  intro l
  induction l with
  | nil => intro acc hacc p f h; exact hacc p f h
  | cons a l ih =>
    intro acc hacc p f h
    rw [List.foldl_cons] at h
    exact ih _ (calibrate_step_value k v lam acc a hacc) p f h

theorem calibrate_foldl_le (k v : List ℝ) (lam : ℝ) :
    ∀ (l : List Attempt) (acc : Option (SviParams × ℝ)) (p : SviParams) (f : ℝ),
      l.foldl (calibrate_step k v lam) acc = some (p, f) →
      ∀ x : SviParams, some x ∈ l → f ≤ svi_objective x k v lam := by
  intro l
  induction l with
  | nil => intro acc p f _ x hx; exact absurd hx (List.not_mem_nil _)
  | cons a l ih =>
    intro acc p f h x hx
    rw [List.foldl_cons] at h
    rcases List.mem_cons.mp hx with hax | hx'
    · obtain ⟨p1, f1, hstep, hle1⟩ := calibrate_step_le_att k v lam acc x
      rw [← hax, hstep] at h
      obtain ⟨p2, f2, hfold, hle2⟩ := calibrate_foldl_mono k v lam l p1 f1
      rw [hfold] at h
      obtain ⟨hp, hf⟩ := Prod.mk.injEq .. ▸ Option.some.injEq .. ▸ h
      exact hf ▸ (hle2.trans hle1)
    · exact ih _ p f h x hx'

/-! ## The claims about the objective and the model -/

/-- C3: `svi_objective` returns the fixed `1e10` penalty for every parameter
set with `b < 0`, `sigma ≤ 0` or `|rho| ≥ 1` — a constant independent of
`k` and `v`, so the model is never consulted — and for every parameter set
inside all three bounds it returns the sum of squared model-minus-market
errors plus `lambda_reg * (b^2 + sigma^2)`. -/
theorem svi_objective_gate_and_formula (p : SviParams) (k v : List ℝ)
    (lambda_reg : ℝ) :
    (p.b < 0 ∨ p.sigma ≤ 0 ∨ 1 ≤ |p.rho| →
      svi_objective p k v lambda_reg = 1e10 ∧
      ∀ k' v' : List ℝ, svi_objective p k' v' lambda_reg
        = svi_objective p k v lambda_reg) ∧
    (0 ≤ p.b → 0 < p.sigma → |p.rho| < 1 →
      svi_objective p k v lambda_reg =
        (((k.map fun x => svi_model x p.a p.b p.rho p.m_param p.sigma).zip v).map
            fun q => (q.1 - q.2) ^ 2).sum
          + lambda_reg * (p.b ^ 2 + p.sigma ^ 2)) := by
  constructor
  · intro hbad
    have hpen : ∀ k' v' : List ℝ, svi_objective p k' v' lambda_reg = 1e10 :=
      fun k' v' => by rw [svi_objective, if_pos hbad]
    exact ⟨hpen k v, fun k' v' => by rw [hpen, hpen]⟩
  · intro hb hs hr
    rw [svi_objective, if_neg]
    · rfl
    · push_neg
      exact ⟨hb, hs, hr⟩

/-- C7: for every parameter set with `b ≥ 0`, `|rho| < 1` and `sigma > 0`,
`svi_model` returns exactly `a + b * (rho * (k - m) + sqrt((k - m)^2 + sigma^2))`,
elementwise over a sequence of log-moneyness values. -/
theorem svi_model_formula (a b rho m_param sigma : ℝ) (hb : 0 ≤ b)
    (hrho : |rho| < 1) (hsigma : 0 < sigma) (ks : List ℝ) :
    svi_model_vec ks a b rho m_param sigma =
      ks.map (fun k => a + b * (rho * (k - m_param)
        + Real.sqrt ((k - m_param) ^ 2 + sigma ^ 2))) ∧
    ∀ k : ℝ, svi_model k a b rho m_param sigma =
      a + b * (rho * (k - m_param) + Real.sqrt ((k - m_param) ^ 2 + sigma ^ 2)) :=
  ⟨rfl, fun _ => rfl⟩

/-- Witness for C7 at `a = 0, b = 1, rho = 0, m = 0, sigma = 1, k = 0`:
the model value is `sqrt 1 = 1`. -/
theorem svi_model_formula_check : svi_model 0 0 1 0 0 1 = 1 := by
  have h := (svi_model_formula 0 1 0 0 1 zero_le_one (by norm_num) one_pos []).2 0
  norm_num at h
  exact h

/-! ## The claims about `calibrate_svi` -/

/-- C1 (counterexample): an optimizer attempt that completes is accepted
whenever its objective value beats `np.inf`, with no comparison against
the `1e10` penalty sentinel.  On the slice `k = [0]`, `v = [100000]` the
single completed attempt at the bounds-feasible point
`(a, b, rho, m, sigma) = (0, 0, 0, 0, 1)` achieves objective exactly
`1e10` — the invalid-parameter penalty value — yet `calibrate_svi` returns
its parameter vector rather than `None`, with an achieved objective that
is not strictly below the sentinel. -/
theorem calibrate_accepts_penalty_level_value :
    svi_objective ⟨0, 0, 0, 0, 1⟩ [0] [100000] 0 = 1e10
    ∧ calibrate_svi_run [0] [100000] 0 [some ⟨0, 0, 0, 0, 1⟩]
        = some (⟨0, 0, 0, 0, 1⟩, 1e10)
    ∧ ¬ ((1e10 : ℝ) < 1e10)
    ∧ calibrate_svi [0] [100000] 0 [some ⟨0, 0, 0, 0, 1⟩]
        = .ok (some ⟨0, 0, 0, 0, 1⟩) := by
  have hobj : svi_objective ⟨0, 0, 0, 0, 1⟩ [0] [100000] 0 = 1e10 := by
    rw [svi_objective, if_neg (by norm_num)]
    simp only [sq_error, svi_model_vec, svi_model, List.map_cons, List.map_nil,
      List.zip_cons_cons, List.zip_nil_right, List.sum_cons, List.sum_nil]
    norm_num
  have hrun : calibrate_svi_run [0] [100000] 0 [some ⟨0, 0, 0, 0, 1⟩]
      = some (⟨0, 0, 0, 0, 1⟩, 1e10) := by
    simp [calibrate_svi_run, calibrate_step, hobj]
  exact ⟨hobj, hrun, by norm_num, by rw [calibrate_svi]; rw [hrun]; rfl⟩

/-- C1 (amended): `calibrate_svi` returns `None` exactly when every
optimizer attempt raised and was skipped; any completed attempt — even one
whose objective value is at or above the invalid-parameter penalty — yields
a returned parameter vector. -/
theorem calibrate_none_iff_every_attempt_raised (k v : List ℝ) (lam : ℝ)
    (attempts : List Attempt) (hv : v ≠ []) :
    calibrate_svi k v lam attempts = .ok none ↔ ∀ a ∈ attempts, a = none := by
  obtain ⟨x, v', rfl⟩ : ∃ x v', v = x :: v' := by
    cases v with
    | nil => exact absurd rfl hv
    | cons x v' => exact ⟨x, v', rfl⟩
  rw [calibrate_svi]
  rw [show ((Except.ok ((calibrate_svi_run k (x :: v') lam attempts).map Prod.fst) :
      Except Unit (Option SviParams)) = .ok none ↔
      (calibrate_svi_run k (x :: v') lam attempts).map Prod.fst = none) from by
    constructor
    · intro h; exact Except.ok.inj h
    · intro h; rw [h]]
  rw [Option.map_eq_none']
  exact calibrate_svi_run_none_iff k (x :: v') lam attempts

/-- Witness for C1 at `v = [1]` with the single attempt raising: the
result is `None`. -/
theorem calibrate_none_iff_every_attempt_raised_check :
    calibrate_svi [0] [1] 0 [none] = .ok none :=
  (calibrate_none_iff_every_attempt_raised [0] [1] 0 [none] (by simp)).mpr
    (by simp)

/-- C5: the parameter set `calibrate_svi` keeps achieves an objective value
that is its own objective evaluation and is `≤` the objective value of
every attempt that completed without raising; and (for nonempty `v`) a run
with a single attempt never raises — it returns a value for every attempt
outcome. -/
theorem calibrate_returns_best_attempt (k v : List ℝ) (lam : ℝ)
    (attempts : List Attempt) (hv : v ≠ []) :
    (∀ p f, calibrate_svi_run k v lam attempts = some (p, f) →
      f = svi_objective p k v lam ∧
        ∀ x : SviParams, some x ∈ attempts → f ≤ svi_objective x k v lam) ∧
    ∀ att : Attempt, ∃ r, calibrate_svi k v lam [att] = .ok r := by
  refine ⟨fun p f h => ⟨?_, ?_⟩, fun att => ?_⟩
  · exact calibrate_foldl_value k v lam attempts none (by simp) p f h
  · exact calibrate_foldl_le k v lam attempts none p f h
  · obtain ⟨x, v', rfl⟩ : ∃ x v', v = x :: v' := by
      cases v with
      | nil => exact absurd rfl hv
      | cons x v' => exact ⟨x, v', rfl⟩
    exact ⟨_, rfl⟩

/-- Witness for C5 at `v = [1]`: a single raising attempt still produces a
(`None`) result instead of propagating an error. -/
theorem calibrate_returns_best_attempt_check :
    ∃ r, calibrate_svi [0] [1] 0 [none] = .ok r :=
  (calibrate_returns_best_attempt [0] [1] 0 [] (by simp)).2 none

/-- C10: `calibrate_svi` evaluates `np.min(v)` before the multi-start loop,
so an empty `v` fails the whole call; for nonempty `v` every call returns
(either `None` or a parameter vector), since per-attempt exceptions are
caught and skipped.  The surface generator's at-least-5-quotes gate always
hands `calibrate_svi` a nonempty `v`. -/
theorem calibrate_svi_total (k v : List ℝ) (lam : ℝ) (attempts : List Attempt)
    (quotes : List Quote) (m : ℝ) :
    (v = [] → calibrate_svi k v lam attempts = .error ()) ∧
    (v ≠ [] → ∃ r : Option SviParams, calibrate_svi k v lam attempts = .ok r) ∧
    (5 ≤ (slice m quotes).length → sliceV quotes m ≠ []) := by
  refine ⟨fun hv => by rw [hv, calibrate_svi], fun hv => ?_, fun h5 => ?_⟩
  · obtain ⟨x, v', rfl⟩ : ∃ x v', v = x :: v' := by
      cases v with
      | nil => exact absurd rfl hv
      | cons x v' => exact ⟨x, v', rfl⟩
    exact ⟨_, rfl⟩
  · rw [sliceV, ← List.length_pos_iff_ne_nil, List.length_map]
    omega

/-! ## Lemmas about the grid and the per-maturity rows -/

theorem linspace_length (lo hi : ℝ) (n : ℕ) : (linspace lo hi n).length = n := by
  simp [linspace]

theorem linspace_getD (lo hi : ℝ) (n : ℕ) (i : ℕ) (h : i < n) :
    (linspace lo hi n).getD i 0 = lo + i * (hi - lo) / ((n : ℝ) - 1) := by
  rw [linspace, List.getD_eq_getElem?_getD, List.getElem?_map, List.getElem?_range h]
  rfl

theorem linspace_first (lo hi : ℝ) : (linspace lo hi 100).getD 0 0 = lo := by
  rw [linspace_getD lo hi 100 0 (by norm_num)]
  norm_num

theorem linspace_last (lo hi : ℝ) : (linspace lo hi 100).getD 99 0 = hi := by
  rw [linspace_getD lo hi 100 99 (by norm_num)]
  have h99 : ((100 : ℕ) : ℝ) - 1 = 99 := by norm_num
  rw [h99]
  field_simp

theorem linspace_spacing (lo hi : ℝ) (i : ℕ) (h : i + 1 < 100) :
    (linspace lo hi 100).getD (i + 1) 0 - (linspace lo hi 100).getD i 0
      = (hi - lo) / 99 := by
  rw [linspace_getD lo hi 100 (i + 1) h, linspace_getD lo hi 100 i (by omega)]
  have h99 : ((100 : ℕ) : ℝ) - 1 = 99 := by norm_num
  rw [h99]
  push_cast
  ring

theorem linspace_chain_lt (lo hi : ℝ) (h : lo < hi) :
    List.Chain' (· < ·) (linspace lo hi 100) := by
  rw [linspace, List.chain'_map]
  rw [show (100 : ℕ) = 99 + 1 from rfl, List.chain'_range_succ]
  intro i hi99
  have hstep : (0 : ℝ) < (hi - lo) / ((100 : ℕ) - 1) := by
    apply div_pos (sub_pos.mpr h)
    norm_num
  have : (i : ℝ) * (hi - lo) / ((100 : ℕ) - 1)
      < ((i : ℝ) + 1) * (hi - lo) / ((100 : ℕ) - 1) := by
    rw [div_lt_div_iff_of_pos_right (by norm_num : (0 : ℝ) < ((100 : ℕ) : ℝ) - 1)]
    have := sub_pos.mpr h
    nlinarith
  push_cast at this ⊢
  linarith

theorem foldl_min_le (xs : List ℝ) : ∀ x : ℝ, xs.foldl min x ≤ x := by
  induction xs with
  | nil => intro x; simp
  | cons y ys ih =>
    intro x
    rw [List.foldl_cons]
    exact (ih (min x y)).trans (min_le_left x y)

theorem le_foldl_max (xs : List ℝ) : ∀ x : ℝ, x ≤ xs.foldl max x := by
  induction xs with
  | nil => intro x; simp
  | cons y ys ih =>
    intro x
    rw [List.foldl_cons]
    exact (le_max_left x y).trans (ih (max x y))

theorem listMin_le_listMax (xs : List ℝ) (h : xs ≠ []) :
    listMin xs ≤ listMax xs := by
  cases xs with
  | nil => exact absurd rfl h
  | cons x xs =>
    rw [listMin, listMax]
    exact (foldl_min_le xs x).trans (le_foldl_max xs x)

theorem grid_lo_lt_hi (quotes : List Quote) (m : ℝ)
    (h5 : ¬ (slice m quotes).length < 5) :
    listMin (sliceK quotes m) - 0.1 < listMax (sliceK quotes m) + 0.1 := by
  have hne : sliceK quotes m ≠ [] := by
    rw [sliceK, ← List.length_pos_iff_ne_nil, List.length_map]
    omega
  have := listMin_le_listMax (sliceK quotes m) hne
  linarith

theorem maturityRows_eq_grid (attempts : List Attempt) (quotes : List Quote)
    (spot reg : ℝ) (ot : String) (m : ℝ) (p : SviParams)
    (h5 : ¬ (slice m quotes).length < 5)
    (hcal : calibrate_svi (sliceK quotes m) (sliceV quotes m) reg attempts
      = .ok (some p)) :
    maturityRows attempts quotes spot reg ot m
      = (gridOf quotes m).map (rowOf spot ot m p) := by
  rw [maturityRows, if_neg h5, hcal]

theorem maturityRows_tte (attempts : List Attempt) (quotes : List Quote)
    (spot reg : ℝ) (ot : String) (m : ℝ) :
    ∀ r ∈ maturityRows attempts quotes spot reg ot m, r.timeToExpiry = m := by
  intro r hr
  rw [maturityRows] at hr
  split at hr
  · exact absurd hr (List.not_mem_nil r)
  · split at hr
    · exact absurd hr (List.not_mem_nil r)
    · exact absurd hr (List.not_mem_nil r)
    · obtain ⟨ks, _, rfl⟩ := List.mem_map.mp hr
      rfl

theorem maturityRows_ne_nil_length (attempts : List Attempt) (quotes : List Quote)
    (spot reg : ℝ) (ot : String) (m : ℝ)
    (h : maturityRows attempts quotes spot reg ot m ≠ []) :
    ¬ (slice m quotes).length < 5 := by
  intro h5
  rw [maturityRows, if_pos h5] at h
  exact h rfl

theorem generateRows_cons (attemptsFor : ℝ → List Attempt) (a : ℝ) (ms : List ℝ)
    (quotes : List Quote) (spot reg : ℝ) (ot : String) :
    generateRows attemptsFor (a :: ms) quotes spot reg ot
      = maturityRows (attemptsFor a) quotes spot reg ot a
        ++ generateRows attemptsFor ms quotes spot reg ot := by
  rw [generateRows, List.flatMap_cons, generateRows]

theorem generateRows_mem (attemptsFor : ℝ → List Attempt) (ms : List ℝ)
    (quotes : List Quote) (spot reg : ℝ) (ot : String) (r : SurfaceRow) :
    r ∈ generateRows attemptsFor ms quotes spot reg ot ↔
      ∃ m' ∈ ms, r ∈ maturityRows (attemptsFor m') quotes spot reg ot m' := by
  rw [generateRows, List.mem_flatMap]

theorem generateRows_tte_mem (attemptsFor : ℝ → List Attempt) (ms : List ℝ)
    (quotes : List Quote) (spot reg : ℝ) (ot : String) (r : SurfaceRow)
    (hr : r ∈ generateRows attemptsFor ms quotes spot reg ot) :
    r.timeToExpiry ∈ ms := by
  obtain ⟨m', hm', hrm⟩ := (generateRows_mem attemptsFor ms quotes spot reg ot r).mp hr
  rw [maturityRows_tte (attemptsFor m') quotes spot reg ot m' r hrm]
  exact hm'

theorem generateRows_decomp (attemptsFor : ℝ → List Attempt) :
    ∀ (ms : List ℝ) (quotes : List Quote) (spot reg : ℝ) (ot : String) (m : ℝ),
      m ∈ ms → ms.Nodup →
      ∃ pre post,
        generateRows attemptsFor ms quotes spot reg ot
          = pre ++ maturityRows (attemptsFor m) quotes spot reg ot m ++ post
        ∧ ∀ r, r ∈ pre ∨ r ∈ post → r.timeToExpiry ≠ m := by
  intro ms
  induction ms with
  | nil => intro quotes spot reg ot m hm _; exact absurd hm (List.not_mem_nil m)
  | cons a ms ih =>
    intro quotes spot reg ot m hm hnd
    rw [List.nodup_cons] at hnd
    obtain ⟨ha, hnd'⟩ := hnd
    rcases List.mem_cons.mp hm with rfl | hm'
    · refine ⟨[], generateRows attemptsFor ms quotes spot reg ot,
        by rw [generateRows_cons, List.nil_append], ?_⟩
      rintro r (hr | hr)
      · exact absurd hr (List.not_mem_nil r)
      · intro he
        apply ha
        rw [← he]
        exact generateRows_tte_mem attemptsFor ms quotes spot reg ot r hr
    · obtain ⟨pre, post, heq, hpp⟩ := ih quotes spot reg ot m hm' hnd'
      refine ⟨maturityRows (attemptsFor a) quotes spot reg ot a ++ pre, post, ?_, ?_⟩
      · rw [generateRows_cons, heq, List.append_assoc, List.append_assoc,
          List.append_assoc]
      · rintro r (hr | hr)
        · rcases List.mem_append.mp hr with hr | hr
          · have hta : r.timeToExpiry = a :=
              maturityRows_tte (attemptsFor a) quotes spot reg ot a r hr
            intro he
            apply ha
            rw [← he, hta] at hm'
            exact hm'
          · exact hpp r (Or.inl hr)
        · exact hpp r (Or.inr hr)

/-! ## The claims about the surface generator -/

/-- C4: for every maturity with at least 5 close quotes and a successful
calibration, the surface generator emits exactly 100 rows for that
maturity; their `LogMoneyness` values are the `linspace` grid — evenly
spaced, strictly increasing, spanning `[min(k) - 0.1, max(k) + 0.1]`
inclusive at both endpoints — and in the full output those 100 rows are
exactly the rows carrying that maturity. -/
theorem generate_grid_per_maturity (attemptsFor : ℝ → List Attempt)
    (ms : List ℝ) (quotes : List Quote) (spot reg : ℝ) (ot : String)
    (m : ℝ) (p : SviParams)
    (h5 : ¬ (slice m quotes).length < 5)
    (hcal : calibrate_svi (sliceK quotes m) (sliceV quotes m) reg (attemptsFor m)
      = .ok (some p))
    (hm : m ∈ ms) (hnd : ms.Nodup) :
    (maturityRows (attemptsFor m) quotes spot reg ot m).length = 100 ∧
    (maturityRows (attemptsFor m) quotes spot reg ot m).map (fun r => r.logMoneyness)
      = linspace (listMin (sliceK quotes m) - 0.1)
          (listMax (sliceK quotes m) + 0.1) 100 ∧
    List.Chain' (· < ·)
      ((maturityRows (attemptsFor m) quotes spot reg ot m).map
        fun r => r.logMoneyness) ∧
    ((maturityRows (attemptsFor m) quotes spot reg ot m).map
        fun r => r.logMoneyness).getD 0 0 = listMin (sliceK quotes m) - 0.1 ∧
    ((maturityRows (attemptsFor m) quotes spot reg ot m).map
        fun r => r.logMoneyness).getD 99 0 = listMax (sliceK quotes m) + 0.1 ∧
    (∀ i : ℕ, i + 1 < 100 →
      ((maturityRows (attemptsFor m) quotes spot reg ot m).map
          fun r => r.logMoneyness).getD (i + 1) 0
        - ((maturityRows (attemptsFor m) quotes spot reg ot m).map
            fun r => r.logMoneyness).getD i 0
        = ((listMax (sliceK quotes m) + 0.1) - (listMin (sliceK quotes m) - 0.1)) / 99) ∧
    ∃ pre post,
      generateRows attemptsFor ms quotes spot reg ot
        = pre ++ maturityRows (attemptsFor m) quotes spot reg ot m ++ post
      ∧ ∀ r, r ∈ pre ∨ r ∈ post → r.timeToExpiry ≠ m := by
  have hrows := maturityRows_eq_grid (attemptsFor m) quotes spot reg ot m p h5 hcal
  have hmap : (maturityRows (attemptsFor m) quotes spot reg ot m).map
      (fun r => r.logMoneyness)
      = linspace (listMin (sliceK quotes m) - 0.1)
          (listMax (sliceK quotes m) + 0.1) 100 := by
    rw [hrows, gridOf, List.map_map]
    exact List.map_id _
  have hlohi := grid_lo_lt_hi quotes m h5
  refine ⟨?_, hmap, ?_, ?_, ?_, ?_, ?_⟩
  · rw [hrows, List.length_map, gridOf, linspace_length]
  · rw [hmap]
    exact linspace_chain_lt _ _ hlohi
  · rw [hmap, linspace_first]
  · rw [hmap, linspace_last]
  · intro i hi
    rw [hmap, linspace_spacing _ _ i hi]
  · exact generateRows_decomp attemptsFor ms quotes spot reg ot m hm hnd

/-- Witness for C4: on the five-quote slice `wQuotes` at maturity 1 with a
single completed attempt at `wParams`, the generator emits exactly 100
rows. -/
theorem generate_grid_per_maturity_check :
    (maturityRows [some wParams] wQuotes 100 0 "Both" 1).length = 100 := by
  have hslice : slice 1 wQuotes = wQuotes := by
    norm_num [wQuotes, slice, IsClose]
  have h5 : ¬ (slice 1 wQuotes).length < 5 := by
    rw [hslice]
    norm_num [wQuotes]
  have hcal : calibrate_svi (sliceK wQuotes 1) (sliceV wQuotes 1) 0 [some wParams]
      = .ok (some wParams) := by
    rw [sliceV, hslice, wQuotes]
    simp [calibrate_svi, calibrate_svi_run, calibrate_step]
  exact (generate_grid_per_maturity (fun _ => [some wParams]) [1] wQuotes 100 0
    "Both" 1 wParams h5 hcal (by simp) (by simp)).1

/-- C6: a maturity whose slice has fewer than 5 close quotes produces no
rows at all, no row of the whole output carries that maturity, and the
generator just moves on to the remaining maturities. -/
theorem insufficient_quotes_skipped (attemptsFor : ℝ → List Attempt)
    (ms ms' : List ℝ) (quotes : List Quote) (spot reg : ℝ) (ot : String) (m : ℝ)
    (hfew : (slice m quotes).length < 5) :
    maturityRows (attemptsFor m) quotes spot reg ot m = [] ∧
    (∀ r ∈ generateRows attemptsFor ms quotes spot reg ot, r.timeToExpiry ≠ m) ∧
    generateRows attemptsFor (m :: ms') quotes spot reg ot
      = generateRows attemptsFor ms' quotes spot reg ot := by
  have hnil : ∀ atts : List Attempt, maturityRows atts quotes spot reg ot m = [] :=
    fun atts => by rw [maturityRows, if_pos hfew]
  refine ⟨hnil _, fun r hr he => ?_, ?_⟩
  · obtain ⟨m', hm', hrm⟩ :=
      (generateRows_mem attemptsFor ms quotes spot reg ot r).mp hr
    have htte : r.timeToExpiry = m' :=
      maturityRows_tte (attemptsFor m') quotes spot reg ot m' r hrm
    have hmm : m' = m := by rw [← htte, he]
    rw [hmm, hnil] at hrm
    exact absurd hrm (List.not_mem_nil r)
  · rw [generateRows_cons, hnil, List.nil_append]

/-- Witness for C6: the four-quote slice `wQuotesFew` at maturity 1 yields
no rows. -/
theorem insufficient_quotes_skipped_check :
    maturityRows [] wQuotesFew 100 0 "Both" 1 = [] := by
  have hfew : (slice 1 wQuotesFew).length < 5 := by
    norm_num [wQuotesFew, slice, IsClose]
  exact (insufficient_quotes_skipped (fun _ => []) [] [] wQuotesFew 100 0 "Both" 1
    hfew).1

/-- C8: the generator hands the calibrator the market implied volatilities
multiplied by 100, and every output row's `ImpliedVolatility` is the SVI
model value at that row's grid point divided by 100 — back on the input's
fractional scale. -/
theorem generate_scale_roundtrip (attempts : List Attempt) (quotes : List Quote)
    (spot reg : ℝ) (ot : String) (m : ℝ) (p : SviParams)
    (h5 : ¬ (slice m quotes).length < 5)
    (hcal : calibrate_svi (sliceK quotes m)
        ((slice m quotes).map fun q => q.impliedVolatility * 100) reg attempts
      = .ok (some p)) :
    sliceV quotes m = (slice m quotes).map (fun q => q.impliedVolatility * 100) ∧
    ∀ r ∈ maturityRows attempts quotes spot reg ot m,
      r.impliedVolatility
        = svi_model r.logMoneyness p.a p.b p.rho p.m_param p.sigma / 100 ∧
      r.impliedVolatility * 100
        = svi_model r.logMoneyness p.a p.b p.rho p.m_param p.sigma := by
  refine ⟨rfl, fun r hr => ?_⟩
  rw [maturityRows_eq_grid attempts quotes spot reg ot m p h5 hcal] at hr
  obtain ⟨ks, _, rfl⟩ := List.mem_map.mp hr
  refine ⟨rfl, ?_⟩
  show svi_model ks p.a p.b p.rho p.m_param p.sigma / 100 * 100
    = svi_model ks p.a p.b p.rho p.m_param p.sigma
  field_simp

/-- Witness for C8: on `wQuotes` the scaled volatilities handed to the
calibrator are `[20, 20, 20, 20, 20]` — the market values times 100 — and
the calibration hypothesis holds at `wParams`. -/
theorem generate_scale_roundtrip_check :
    sliceV wQuotes 1 = (slice 1 wQuotes).map (fun q => q.impliedVolatility * 100)
    ∧ sliceV wQuotes 1 = [20, 20, 20, 20, 20] := by
  have hslice : slice 1 wQuotes = wQuotes := by
    norm_num [wQuotes, slice, IsClose]
  have h5 : ¬ (slice 1 wQuotes).length < 5 := by
    rw [hslice]
    norm_num [wQuotes]
  have hcal : calibrate_svi (sliceK wQuotes 1)
      ((slice 1 wQuotes).map fun q => q.impliedVolatility * 100) 0 [some wParams]
      = .ok (some wParams) := by
    rw [hslice, wQuotes]
    simp [calibrate_svi, calibrate_svi_run, calibrate_step]
  refine ⟨(generate_scale_roundtrip [some wParams] wQuotes 100 0 "Both" 1 wParams
    h5 hcal).1, ?_⟩
  rw [sliceV, hslice, wQuotes]
  norm_num

/-- C2 (counterexample): when no maturity yields a fit the returned empty
table carries only five columns — `LogMoneyness` is missing from the
line 134 column list, so the empty result's schema is column-reduced
relative to the non-empty output's six-column schema. -/
theorem generate_empty_schema_counterexample :
    (generate_svi_calibrated_data (fun _ => []) [1] [] 100 0 "Both").columns
      = ["TimeToExpiry", "StrikePrice", "Moneyness", "ImpliedVolatility",
         "OptionType"] ∧
    (generate_svi_calibrated_data (fun _ => []) [1] [] 100 0 "Both").columns
      ≠ ["TimeToExpiry", "LogMoneyness", "StrikePrice", "Moneyness",
         "ImpliedVolatility", "OptionType"] := by
  have hrows : generateRows (fun _ => []) [1] [] 100 0 "Both" = [] := by
    rw [generateRows_cons, maturityRows, if_pos (by norm_num [slice])]
    rw [List.nil_append, generateRows, List.flatMap_nil]
  constructor
  · rw [generate_svi_calibrated_data, hrows]
    rfl
  · rw [generate_svi_calibrated_data, hrows]
    simp [emptyColumns]

/-- C2 (amended): when no maturity yields rows the generator returns the
well-formed empty table with the five-column set of line 134 (without
`LogMoneyness`); when any maturity yields rows the table carries the full
six-column schema, which strictly extends the empty one. -/
theorem generate_schema (attemptsFor : ℝ → List Attempt) (ms : List ℝ)
    (quotes : List Quote) (spot reg : ℝ) (ot : String) :
    (generateRows attemptsFor ms quotes spot reg ot = [] →
      generate_svi_calibrated_data attemptsFor ms quotes spot reg ot
        = ⟨emptyColumns, []⟩) ∧
    (generateRows attemptsFor ms quotes spot reg ot ≠ [] →
      (generate_svi_calibrated_data attemptsFor ms quotes spot reg ot).columns
        = fullColumns ∧
      (generate_svi_calibrated_data attemptsFor ms quotes spot reg ot).rows
        = generateRows attemptsFor ms quotes spot reg ot) ∧
    emptyColumns ≠ fullColumns := by
  refine ⟨fun h => ?_, fun h => ?_, by simp [emptyColumns, fullColumns]⟩
  · rw [generate_svi_calibrated_data, h]
  · rw [generate_svi_calibrated_data]
    cases hg : generateRows attemptsFor ms quotes spot reg ot with
    | nil => exact absurd hg h
    | cons r rs => exact ⟨rfl, rfl⟩

/-! ## The claim about the outlier filter -/

/-- C9: `filter_outliers` returns exactly the rows that pass the volume
step (`volume > 10` when the table has a volume column; every row passes
when it is absent) and whose implied volatility lies within
`[Q1 - 2*IQR, Q3 + 2*IQR]` inclusive, the quartiles being computed from
the `ImpliedVolatility` column of the volume-filtered table; the result is
a subsequence of the input, which the pure embedding leaves untouched. -/
theorem filter_outliers_spec (hasVolume : Bool) (rows : List VolRow) :
    List.Sublist (filter_outliers hasVolume rows) rows ∧
    (hasVolume = false → volumeStep hasVolume rows = rows) ∧
    (hasVolume = true →
      ∀ r : VolRow, r ∈ volumeStep hasVolume rows ↔ r ∈ rows ∧ 10 < r.volume) ∧
    ∀ r : VolRow, r ∈ filter_outliers hasVolume rows ↔
      r ∈ volumeStep hasVolume rows ∧
      quantileLin ((volumeStep hasVolume rows).map fun x => x.impliedVolatility)
          (1/4)
        - 2 * (quantileLin
            ((volumeStep hasVolume rows).map fun x => x.impliedVolatility) (3/4)
          - quantileLin
            ((volumeStep hasVolume rows).map fun x => x.impliedVolatility) (1/4))
        ≤ r.impliedVolatility ∧
      r.impliedVolatility ≤
        quantileLin ((volumeStep hasVolume rows).map fun x => x.impliedVolatility)
            (3/4)
          + 2 * (quantileLin
              ((volumeStep hasVolume rows).map fun x => x.impliedVolatility) (3/4)
            - quantileLin
              ((volumeStep hasVolume rows).map fun x => x.impliedVolatility) (1/4)) := by
  refine ⟨?_, fun hf => by rw [volumeStep, hf, if_neg Bool.false_ne_true], fun ht r => ?_, fun r => ?_⟩
  · have h1 : List.Sublist (filter_outliers hasVolume rows)
        (volumeStep hasVolume rows) :=
      List.filter_sublist _
    have h2 : List.Sublist (volumeStep hasVolume rows) rows := by
      rw [volumeStep]
      split
      · exact List.filter_sublist _
      · exact List.Sublist.refl rows
    exact h1.trans h2
  · rw [volumeStep, if_pos ht, List.mem_filter, decide_eq_true_eq]
  · rw [filter_outliers, List.mem_filter, decide_eq_true_eq]

/-- The spec's own test vector: with volatilities
`[0.1, 0.12, 0.11, 0.13, 0.9]` and no volume column, the `2*IQR` rule
drops exactly the `0.9` row. -/
theorem filter_outliers_iqr_example :
    filter_outliers false
        [⟨1/10, 0⟩, ⟨12/100, 0⟩, ⟨11/100, 0⟩, ⟨13/100, 0⟩, ⟨9/10, 0⟩]
      = [⟨1/10, 0⟩, ⟨12/100, 0⟩, ⟨11/100, 0⟩, ⟨13/100, 0⟩] := by
  norm_num [filter_outliers, volumeStep, quantileLin, List.insertionSort,
    List.orderedInsert, List.filter_cons]

/-- The spec's volume test: a row with `volume = 5` is dropped by the
volume step regardless of its volatility, and the `0.9` outlier is still
dropped by the IQR step. -/
theorem filter_outliers_volume_example :
    filter_outliers true
        [⟨1/10, 5⟩, ⟨12/100, 20⟩, ⟨11/100, 20⟩, ⟨13/100, 20⟩, ⟨9/10, 20⟩]
      = [⟨12/100, 20⟩, ⟨11/100, 20⟩, ⟨13/100, 20⟩] := by
  have h1 : ⌊(3/4 : ℚ)⌋₊ = 0 := by
    rw [Nat.floor_eq_zero]
    norm_num
  have h2 : ⌊(9/4 : ℚ)⌋₊ = 2 := by
    rw [Nat.floor_eq_iff (by norm_num)]
    norm_num
  norm_num [filter_outliers, volumeStep, quantileLin, List.insertionSort,
    List.orderedInsert, List.filter_cons, h1, h2]

end SviModule
